import Mathlib

/-!
Verification of the WhatsApp relay bot core (`src/bot.mjs`)

Shallow embedding of the session/synchronization core of `bot.mjs`:

* the Sent-Item Ledger (`loadSentCache` / `saveSentCache` / the `sentFiles` set),
* the Bucket Sync Engine (`pollBucketAndSend`),
* the Outbox Sync Engine (`pollOutboxAndSend`),
* the Connection Manager's `connection.update` handler and the startup
  sequence of `startWhatsApp`.

External collaborators (the Supabase storage/database backend, the Baileys
socket, the filesystem) are modelled by explicit oracle parameters: each
network or filesystem call becomes an `Except`-valued or `Bool`-valued field
so that a thrown JavaScript exception is an `.error` value.  JavaScript `Set`
objects are modelled as duplicate-free `List String` in insertion order, and
JavaScript `null`/`undefined` as `Option`.
-/

set_option autoImplicit false

namespace Bot

/-- JavaScript `a || b` on strings (`""` is falsy, as in `row.to || GROUP_JID`). -/
def jsOrStr : Option String → String → String
  | some s, d => if s = "" then d else s
  | none, d => d

/-- JavaScript `a || null` on a possibly-absent string (`res?.key?.id || null`). -/
def jsOrNullStr : Option String → Option String
  | some s => if s = "" then none else some s
  | none => none

/-- JavaScript `a || b` on numbers (`0` is falsy, as in the close-code chain). -/
def jsOrNat : Option Nat → Nat → Nat
  | some n, d => if n = 0 then d else n
  | none, d => d

/-- JavaScript `String.prototype.toLowerCase` (faithful on ASCII, which is all
the `.pdf` suffix check needs). -/
def jsToLowerCase (s : String) : String :=
  ⟨s.data.map Char.toLower⟩

/-- JavaScript `String.prototype.endsWith`, as a suffix test on the character
sequences. -/
def jsEndsWith (s suffix : String) : Bool :=
  suffix.data.isSuffixOf s.data

/-- JavaScript `Set.prototype.add`: append the element unless already present, keeping
JavaScript `Set` insertion order. -/
def insertUnique (l : List String) (n : String) : List String :=
  if n ∈ l then l else l ++ [n]

/-- JavaScript `new Set(names)` for a list of strings: fold `add` over the list. -/
def setOfList (names : List String) : List String :=
  names.foldl insertUnique []

/-! ## Sent-Item Ledger (`loadSentCache`, bot.mjs lines 86-92)

`loadSentCache` is `try { return new Set(JSON.parse(fs.readFileSync(...))) }
catch (_) { return new Set() }`.  `fs.readFileSync` and `JSON.parse` are Node
externals; they are modelled as an `Except`-valued read result (a throwing
read is `.error`) and an abstract parse oracle (a throwing / non-iterable
parse is `.error`). -/

/-- The Sent-Item Ledger load: any exception in the try block (unreadable
file, unparseable content) yields the empty set; a successful read+parse
yields the set of the parsed names. -/
def loadSentCache (readResult : Except Unit String)
    (parse : String → Except Unit (List String)) : List String :=
  match readResult with
  | .error _ => []
  | .ok s =>
    match parse s with
    | .error _ => []
    | .ok names => setOfList names

/-! ## Bucket Sync Engine (`pollBucketAndSend`, bot.mjs lines 178-217) -/

/-- One entry of the storage listing (`file` in the loop); `file.name` may be
absent, which the code guards with `file.name?.`. -/
structure FileEntry where
  name : Option String
  deriving Repr, DecidableEq

/-- The configured target group JID (`GROUP_JID` from the environment). -/
def GROUP_JID : String := "1203630000000000@g.us"

/-- Backend oracle for one bucket cycle: `getPublicUrl` may fail (`pubErr`)
or return a possibly-absent URL (`pub?.publicUrl`); `sendOk text` tells
whether `sock.sendMessage(GROUP_JID, { text })` succeeds (`false` = throws). -/
structure BucketEnv where
  getPublicUrl : String → Except Unit (Option String)
  sendOk : String → Bool

/-- The notification text built at bot.mjs line 207. -/
def pdfMessageText (name url : String) : String :=
  "📄 New PDF uploaded:*" ++ name ++ "*\n" ++ url

/-- Result of one bucket cycle: the `sendMessage` calls made, in order, as
(file name, text) pairs, and the ledger after the cycle. -/
structure BucketCycleResult where
  attempts : List (String × String)
  ledger : List String
  deriving Repr, DecidableEq

/-- The `for (const file of data)` loop of `pollBucketAndSend`: skip entries
without the (case-insensitive) `.pdf` suffix, skip entries already in the
ledger, skip entries whose public URL cannot be resolved, otherwise send and
then add to the ledger.  A throwing send propagates to the surrounding
`catch`, ending the cycle with the ledger as accumulated so far. -/
def processFiles (env : BucketEnv) : List FileEntry → List String → BucketCycleResult
  | [], ledger => ⟨[], ledger⟩
  | f :: rest, ledger =>
    match f.name with
    | none => processFiles env rest ledger
    | some name =>
      if jsEndsWith (jsToLowerCase name) ".pdf" = false then
        processFiles env rest ledger
      else if name ∈ ledger then
        processFiles env rest ledger
      else
        match env.getPublicUrl name with
        | .error _ => processFiles env rest ledger
        | .ok none => processFiles env rest ledger
        | .ok (some url) =>
          let text := pdfMessageText name url
          if env.sendOk text then
            let r := processFiles env rest (insertUnique ledger name)
            ⟨(name, text) :: r.attempts, r.ledger⟩
          else
            ⟨[(name, text)], ledger⟩

/-- One Bucket Sync cycle: a listing error returns with no sends and the
ledger unchanged; otherwise the listing is processed in order. -/
def pollBucketAndSend (env : BucketEnv) (listing : Except Unit (List FileEntry))
    (ledger : List String) : BucketCycleResult :=
  match listing with
  | .error _ => ⟨[], ledger⟩
  | .ok files => processFiles env files ledger

/-- A bucket environment where every URL resolves to `"u/" ++ name` and every
send succeeds, used to instantiate hypotheses at concrete inputs. -/
def envAllOk : BucketEnv :=
  ⟨fun n => .ok (some ("u/" ++ n)), fun _ => true⟩

/-- A bucket environment where URLs resolve but every send throws. -/
def envSendFails : BucketEnv :=
  ⟨fun n => .ok (some ("u/" ++ n)), fun _ => false⟩

/-! ## Outbox Sync Engine (`pollOutboxAndSend`, bot.mjs lines 220-250) -/

/-- One row of the `messages_outbox` table.  `to`, `message`, `sent_at` and
`wa_msg_id` may each be null/absent. -/
structure OutboxRow where
  id : Nat
  /-- the `to` column (`to` is reserved in Lean, hence the suffix) -/
  to_jid : Option String
  message : Option String
  sent_at : Option String
  wa_msg_id : Option String
  deriving Repr, DecidableEq

/-- The destination of a row: `row.to || GROUP_JID`. -/
def dstOf (r : OutboxRow) : String :=
  jsOrStr r.to_jid GROUP_JID

/-- The message body of a row: `row.message || ''`. -/
def msgOf (r : OutboxRow) : String :=
  r.message.getD ""

/-- Transport oracle for the outbox engine: `sendMessage target text` either
throws (`.error`) or returns the delivery receipt id `res?.key?.id`
(possibly absent). -/
structure OutboxEnv where
  sendMessage : String → String → Except Unit (Option String)

/-- The supabase `.update({sent_at, wa_msg_id}).eq('id', row.id)` call:
every row whose `id` matches is marked sent. -/
def updateSent (t : List OutboxRow) (i : Nat) (now : String)
    (receipt : Option String) : List OutboxRow :=
  t.map fun r =>
    if r.id = i then { r with sent_at := some now, wa_msg_id := jsOrNullStr receipt } else r

/-- Result of one outbox cycle: the `sendMessage` calls made, in order, as
(destination, text) pairs, and the table after the cycle. -/
structure OutboxCycleResult where
  attempts : List (String × String)
  table : List OutboxRow
  deriving Repr, DecidableEq

/-- The `for (const row of data)` loop of `pollOutboxAndSend`: rows with an
empty message body are skipped; otherwise the row is sent and, on success,
marked sent in the table.  A throwing send propagates to the surrounding
`catch`, ending the cycle with the table unchanged from that point. -/
def processRows (env : OutboxEnv) (now : String) :
    List OutboxRow → List OutboxRow → OutboxCycleResult
  | [], t => ⟨[], t⟩
  | row :: rest, t =>
    let dst := dstOf row
    let msg := msgOf row
    if msg = "" then
      processRows env now rest t
    else
      match env.sendMessage dst msg with
      | .error _ => ⟨[(dst, msg)], t⟩
      | .ok receipt =>
        let t2 := updateSent t row.id now receipt
        let r := processRows env now rest t2
        ⟨(dst, msg) :: r.attempts, r.table⟩

/-- The rows matching the query filter `.is('sent_at', null)`. -/
def pendingFilter (t : List OutboxRow) : List OutboxRow :=
  t.filter fun r => r.sent_at.isNone

/-- The batch returned by
`.select('*').is('sent_at', null).limit(50)`: the pending rows, capped at 50. -/
def selectPending (t : List OutboxRow) : List OutboxRow :=
  (pendingFilter t).take 50

/-- One Outbox Sync cycle over table `t`: a query error (e.g. missing table)
returns silently with the table unchanged; otherwise the selected batch is
processed in order. -/
def pollOutboxAndSend (env : OutboxEnv) (now : String) (queryOk : Bool)
    (t : List OutboxRow) : OutboxCycleResult :=
  if queryOk then processRows env now (selectPending t) t
  else ⟨[], t⟩

/-- An outbox environment where every send succeeds with receipt id `"MSGID"`. -/
def outboxEnvOk : OutboxEnv :=
  ⟨fun _ _ => .ok (some "MSGID")⟩

/-- An outbox environment where every send throws. -/
def outboxEnvFails : OutboxEnv :=
  ⟨fun _ _ => .error ()⟩

/-! ## Connection Manager (`connection.update` handler, bot.mjs lines
121-145, and the body of `startWhatsApp`, lines 105-259) -/

/-- The observable actions of the startup sequence and of the
`connection.update` handler. -/
inductive StartAction where
  | ensureAuthDir
  | loadAuthState
  | fetchVersion
  | makeSocket
  | registerConnectionHandler
  | registerCredsHandler
  | registerInboxHandler
  | scheduleBucket
  | scheduleOutbox
  | runBucketCycle
  | runOutboxCycle
  | publishQR
  | openBrowser
  | markOpen
  | invokeStart
  deriving Repr, DecidableEq

/-- One `connection.update` event payload: the `connection` field
(`'open'`/`'close'`/absent), the optional `qr` string, and the close reason
fields `lastDisconnect?.error?.output?.statusCode` and
`lastDisconnect?.error?.status`. -/
structure ConnUpdate where
  connection : Option String
  qr : Option String
  statusCode : Option Nat
  status : Option Nat
  deriving Repr, DecidableEq

/-- The `DisconnectReason.loggedOut` code of the Baileys transport library. -/
def disconnectReasonLoggedOut : Nat := 401

/-- The close code computed at bot.mjs line 140:
`lastDisconnect?.error?.output?.statusCode || lastDisconnect?.error?.status || 0`. -/
def closeCode (statusCode status : Option Nat) : Nat :=
  jsOrNat statusCode (jsOrNat status 0)

/-- The `shouldReconnect` flag computed at bot.mjs line 141. -/
def shouldReconnect (statusCode status : Option Nat) : Bool :=
  closeCode statusCode status ≠ disconnectReasonLoggedOut

/-- The `connection.update` handler: publish a fresh QR (opening the browser
only the first time), mark the session open on `'open'`, and on `'close'`
re-invoke `startWhatsApp` unless the close code is the logged-out code.
Returns the emitted actions and the updated `openedBrowser` flag. -/
def handleConnectionUpdate (openedBrowser : Bool) (u : ConnUpdate) :
    List StartAction × Bool :=
  let qrStep :=
    match u.qr with
    | some _ =>
      (StartAction.publishQR :: (if openedBrowser then [] else [StartAction.openBrowser]), true)
    | none => ([], openedBrowser)
  let openActs := if u.connection = some "open" then [StartAction.markOpen] else []
  let closeActs :=
    if u.connection = some "close" then
      if shouldReconnect u.statusCode u.status then [StartAction.invokeStart] else []
    else []
  (qrStep.1 ++ openActs ++ closeActs, qrStep.2)

/-- The fixed action sequence of the body of `startWhatsApp` (bot.mjs lines
105-259), in source order: both pollers are scheduled and run once
unconditionally at the end of the body. -/
def startWhatsAppBody : List StartAction :=
  [.ensureAuthDir, .loadAuthState, .fetchVersion, .makeSocket,
   .registerConnectionHandler, .registerCredsHandler, .registerInboxHandler,
   .scheduleBucket, .scheduleOutbox, .runBucketCycle, .runOutboxCycle]

/-- Actions emitted by the `connection.update` handler over a sequence of
delivered events, threading the `openedBrowser` flag. -/
def processUpdates : Bool → List ConnUpdate → List StartAction
  | _, [] => []
  | ob, u :: rest =>
    let step := handleConnectionUpdate ob u
    step.1 ++ processUpdates step.2 rest

/-- The observable trace of one `startWhatsApp` invocation followed by the
delivery of `updates` to its `connection.update` handler. -/
def startupTrace (updates : List ConnUpdate) : List StartAction :=
  startWhatsAppBody ++ processUpdates false updates

end Bot


namespace Bot

/-! ## Supporting lemmas for the Bucket Sync Engine -/

/-- Ledger growth: `Set.add` never removes a member. -/
theorem mem_insertUnique_of_mem {l : List String} {m : String} (n : String)
    (h : m ∈ l) : m ∈ insertUnique l n := by
  unfold insertUnique
  split
  · exact h
  · exact List.mem_append_left _ h

/-- The added name is a member of the grown ledger. -/
theorem mem_insertUnique_self (l : List String) (n : String) :
    n ∈ insertUnique l n := by
  unfold insertUnique
  split
  · assumption
  · exact List.mem_append_right _ (List.mem_singleton.mpr rfl)

/-- A name already in the ledger is never among the cycle's send attempts. -/
theorem not_attempted_of_mem_ledger (env : BucketEnv) (files : List FileEntry)
    (ledger : List String) (name : String) (h : name ∈ ledger) :
    name ∉ (processFiles env files ledger).attempts.map Prod.fst := by
  induction files generalizing ledger with
  | nil => simp [processFiles]
  | cons f rest ih =>
    match hf : f.name with
    | none =>
      simpa [processFiles, hf] using ih ledger h
    | some n =>
      by_cases hpdf : jsEndsWith (jsToLowerCase n) ".pdf" = false
      · simpa [processFiles, hf, hpdf] using ih ledger h
      · by_cases hmem : n ∈ ledger
        · simpa [processFiles, hf, hpdf, hmem] using ih ledger h
        · have hne : name ≠ n := fun e => hmem (e ▸ h)
          match hurl : env.getPublicUrl n with
          | .error _ =>
            simpa [processFiles, hf, hpdf, hmem, hurl] using ih ledger h
          | .ok none =>
            simpa [processFiles, hf, hpdf, hmem, hurl] using ih ledger h
          | .ok (some url) =>
            by_cases hsend : env.sendOk (pdfMessageText n url) = true
            · have ih2 := ih (insertUnique ledger n) (mem_insertUnique_of_mem n h)
              simp only [processFiles, hf, hpdf, hmem, hurl, hsend]
              simp only [Bool.not_eq_false] at hpdf
              simp [hpdf, hmem]
              refine ⟨hne, fun x hx => ih2 ?_⟩
              exact List.mem_map.mpr ⟨(name, x), hx, rfl⟩
            · simp only [Bool.not_eq_false] at hpdf
              simp only [Bool.not_eq_true] at hsend
              simp [processFiles, hf, hpdf, hmem, hurl, hsend]
              exact hne

end Bot

namespace Bot

/-- C1: A file name already present in the Sent-Item Ledger is never sent by
a Bucket Sync cycle run against any storage listing containing it; in
particular, presenting the same listing across two consecutive cycles, a
file recorded in the ledger after the first cycle is never sent in the
second. -/
theorem bucket_idempotence :
    (∀ (env : BucketEnv) (listing : Except Unit (List FileEntry))
        (ledger : List String) (name : String), name ∈ ledger →
      name ∉ (pollBucketAndSend env listing ledger).attempts.map Prod.fst) ∧
    (∀ (env : BucketEnv) (listing : Except Unit (List FileEntry))
        (ledger : List String) (name : String),
      name ∈ (pollBucketAndSend env listing ledger).ledger →
      name ∉ (pollBucketAndSend env listing
        (pollBucketAndSend env listing ledger).ledger).attempts.map Prod.fst) := by
  have key : ∀ (env : BucketEnv) (listing : Except Unit (List FileEntry))
      (ledger : List String) (name : String), name ∈ ledger →
      name ∉ (pollBucketAndSend env listing ledger).attempts.map Prod.fst := by
    intro env listing ledger name h
    match listing with
    | .error _ => simp [pollBucketAndSend]
    | .ok files => exact not_attempted_of_mem_ledger env files ledger name h
  exact ⟨key, fun env listing ledger name h => key env listing _ name h⟩

/-- Witness for C1 at a concrete input: with `a.pdf` already in the ledger,
a cycle over a listing containing `a.pdf` does not send it. -/
theorem bucket_idempotence_witness :
    "a.pdf" ∉ (pollBucketAndSend envAllOk
      (.ok [⟨some "a.pdf"⟩, ⟨some "b.pdf"⟩]) ["a.pdf"]).attempts.map Prod.fst :=
  bucket_idempotence.1 envAllOk (.ok [⟨some "a.pdf"⟩, ⟨some "b.pdf"⟩])
    ["a.pdf"] "a.pdf" (by decide)

/-- C6: With the listing `["a.pdf","b.pdf","notes.txt"]`, an empty ledger,
URL resolution succeeding and sends succeeding, one Bucket Sync cycle sends
exactly `a.pdf` then `b.pdf` in listing order, the ledger afterwards is
`{"a.pdf","b.pdf"}`, and `notes.txt` is neither sent nor recorded. -/
theorem bucket_scenario_two_sends (env : BucketEnv) (u : String → String)
    (hurl : ∀ n, env.getPublicUrl n = .ok (some (u n)))
    (hsend : ∀ t, env.sendOk t = true) :
    pollBucketAndSend env
      (.ok [⟨some "a.pdf"⟩, ⟨some "b.pdf"⟩, ⟨some "notes.txt"⟩]) [] =
      ⟨[("a.pdf", pdfMessageText "a.pdf" (u "a.pdf")),
        ("b.pdf", pdfMessageText "b.pdf" (u "b.pdf"))],
       ["a.pdf", "b.pdf"]⟩ := by
  have e1 : jsEndsWith (jsToLowerCase "a.pdf") ".pdf" = true := by decide
  have e2 : jsEndsWith (jsToLowerCase "b.pdf") ".pdf" = true := by decide
  have e3 : jsEndsWith (jsToLowerCase "notes.txt") ".pdf" = false := by decide
  simp [pollBucketAndSend, processFiles, hurl, hsend, e1, e2, e3, insertUnique]

/-- Witness for C6 at a concrete environment where every URL resolves and
every send succeeds. -/
theorem bucket_scenario_two_sends_witness :
    pollBucketAndSend envAllOk
      (.ok [⟨some "a.pdf"⟩, ⟨some "b.pdf"⟩, ⟨some "notes.txt"⟩]) [] =
      ⟨[("a.pdf", pdfMessageText "a.pdf" "u/a.pdf"),
        ("b.pdf", pdfMessageText "b.pdf" "u/b.pdf")],
       ["a.pdf", "b.pdf"]⟩ :=
  bucket_scenario_two_sends envAllOk (fun n => "u/" ++ n)
    (fun _ => rfl) (fun _ => rfl)

/-- C8: The document-suffix filter is case-insensitive: an entry is skipped
when its lowercased name does not end in `".pdf"` (or when the name is
absent), and an entry whose lowercased name ends in `".pdf"` — for example
`"REPORT.PDF"` — that is not yet in the ledger is a send candidate: with its
URL resolved and the send succeeding it is sent and recorded. -/
theorem pdf_filter_case_insensitive :
    (∀ (env : BucketEnv) (rest : List FileEntry) (ledger : List String)
        (name : String),
       jsEndsWith (jsToLowerCase name) ".pdf" = false →
       processFiles env (⟨some name⟩ :: rest) ledger = processFiles env rest ledger) ∧
    (∀ (env : BucketEnv) (rest : List FileEntry) (ledger : List String),
       processFiles env (⟨none⟩ :: rest) ledger = processFiles env rest ledger) ∧
    (∀ (env : BucketEnv) (rest : List FileEntry) (ledger : List String)
        (name url : String),
       jsEndsWith (jsToLowerCase name) ".pdf" = true →
       name ∉ ledger →
       env.getPublicUrl name = .ok (some url) →
       env.sendOk (pdfMessageText name url) = true →
       processFiles env (⟨some name⟩ :: rest) ledger =
         ⟨(name, pdfMessageText name url) ::
            (processFiles env rest (insertUnique ledger name)).attempts,
          (processFiles env rest (insertUnique ledger name)).ledger⟩) := by
  refine ⟨?_, ?_, ?_⟩
  · intro env rest ledger name h
    simp [processFiles, h]
  · intro env rest ledger
    simp [processFiles]
  · intro env rest ledger name url hpdf hmem hurl hsend
    simp [processFiles, hpdf, hmem, hurl, hsend]

/-- Witness for C8 at concrete inputs: `"REPORT.PDF"` passes the filter and
is sent; `"notes.txt"` is skipped. -/
theorem pdf_filter_case_insensitive_witness :
    processFiles envAllOk [⟨some "REPORT.PDF"⟩] [] =
      ⟨("REPORT.PDF", pdfMessageText "REPORT.PDF" "u/REPORT.PDF") ::
         (processFiles envAllOk [] (insertUnique [] "REPORT.PDF")).attempts,
       (processFiles envAllOk [] (insertUnique [] "REPORT.PDF")).ledger⟩ ∧
    processFiles envAllOk [⟨some "notes.txt"⟩] [] = processFiles envAllOk [] [] :=
  ⟨pdf_filter_case_insensitive.2.2 envAllOk [] [] "REPORT.PDF" "u/REPORT.PDF"
     (by decide) (by decide) rfl rfl,
   pdf_filter_case_insensitive.1 envAllOk [] [] "notes.txt" (by decide)⟩

/-- C9: Within one Bucket Sync cycle, a send failure (an exception from the
send) terminates the cycle at that entry: the only attempt from that entry
on is the failed one, the ledger is returned exactly as it was — so the
failed file is not recorded and remains eligible next cycle — and no later
listed entry is attempted. -/
theorem bucket_send_failure_aborts_cycle (env : BucketEnv)
    (name url : String) (rest : List FileEntry) (ledger : List String)
    (hpdf : jsEndsWith (jsToLowerCase name) ".pdf" = true)
    (hmem : name ∉ ledger)
    (hurl : env.getPublicUrl name = .ok (some url))
    (hsend : env.sendOk (pdfMessageText name url) = false) :
    processFiles env (⟨some name⟩ :: rest) ledger =
      ⟨[(name, pdfMessageText name url)], ledger⟩ ∧
    name ∉ (processFiles env (⟨some name⟩ :: rest) ledger).ledger := by
  have h1 : processFiles env (⟨some name⟩ :: rest) ledger =
      ⟨[(name, pdfMessageText name url)], ledger⟩ := by
    simp [processFiles, hpdf, hmem, hurl, hsend]
  refine ⟨h1, ?_⟩
  rw [h1]
  exact hmem

/-- Witness for C9 at a concrete input: the send of `a.pdf` throws, so the
cycle ends before `b.pdf` and the ledger stays empty. -/
theorem bucket_send_failure_aborts_cycle_witness :
    processFiles envSendFails [⟨some "a.pdf"⟩, ⟨some "b.pdf"⟩] [] =
      ⟨[("a.pdf", pdfMessageText "a.pdf" "u/a.pdf")], []⟩ ∧
    "a.pdf" ∉ (processFiles envSendFails [⟨some "a.pdf"⟩, ⟨some "b.pdf"⟩] []).ledger :=
  bucket_send_failure_aborts_cycle envSendFails "a.pdf" "u/a.pdf"
    [⟨some "b.pdf"⟩] [] (by decide) (by decide) rfl rfl

end Bot

namespace Bot

/-! ## Supporting lemmas for the Outbox Sync Engine -/

/-- The selection filter of the outbox query: every selected row has
`sent_at` unset. -/
theorem sent_at_none_of_mem_selectPending {t : List OutboxRow} {r : OutboxRow}
    (h : r ∈ selectPending t) : r.sent_at = none := by
  have h2 : r ∈ pendingFilter t := List.take_subset _ _ h
  have h3 := (List.mem_filter.mp h2).2
  exact Option.isNone_iff_eq_none.mp h3

/-- Selected rows come from the table. -/
theorem mem_table_of_mem_selectPending {t : List OutboxRow} {r : OutboxRow}
    (h : r ∈ selectPending t) : r ∈ t :=
  List.mem_of_mem_filter (List.take_subset _ _ h)

/-- With a transport that never throws, every selected row with a non-empty
message is attempted in the cycle. -/
theorem attempted_of_selected (env : OutboxEnv) (now : String)
    (hok : ∀ d m, ∃ o, env.sendMessage d m = Except.ok o) :
    ∀ (sel t : List OutboxRow) (r : OutboxRow), r ∈ sel → msgOf r ≠ "" →
      (dstOf r, msgOf r) ∈ (processRows env now sel t).attempts := by
  intro sel
  induction sel with
  | nil => intro t r h; exact absurd h (List.not_mem_nil r)
  | cons row rest ih =>
    intro t r hr hmsg
    by_cases hrow : msgOf row = ""
    · rcases List.mem_cons.mp hr with h1 | h2
      · exact absurd (h1 ▸ hrow) hmsg
      · simpa [processRows, hrow] using ih t r h2 hmsg
    · obtain ⟨o, ho⟩ := hok (dstOf row) (msgOf row)
      rcases List.mem_cons.mp hr with h1 | h2
      · subst h1
        simp [processRows, hrow, ho]
      · have := ih (updateSent t row.id now o) r h2 hmsg
        simp [processRows, hrow, ho]
        right
        exact this

/-- Marking one row sent preserves "every row with id `i` is marked sent at
`now`". -/
theorem updateSent_preserves (t : List OutboxRow) (i j : Nat) (now : String)
    (receipt : Option String)
    (h : ∀ r2 ∈ t, r2.id = i → r2.sent_at = some now) :
    ∀ r2 ∈ updateSent t j now receipt, r2.id = i → r2.sent_at = some now := by
  intro r2 hr2 hid
  obtain ⟨r3, hr3, he⟩ := List.mem_map.mp hr2
  by_cases hj : r3.id = j
  · rw [← he]
    simp [hj]
  · rw [← he] at hid ⊢
    simp [hj] at hid ⊢
    exact h r3 hr3 hid

/-- Every row with id `i` updated by `updateSent _ i` is marked sent at `now`. -/
theorem updateSent_sets (t : List OutboxRow) (i : Nat) (now : String)
    (receipt : Option String) :
    ∀ r2 ∈ updateSent t i now receipt, r2.id = i → r2.sent_at = some now := by
  intro r2 hr2 hid
  obtain ⟨r3, hr3, he⟩ := List.mem_map.mp hr2
  by_cases hj : r3.id = i
  · rw [← he]
    simp [hj]
  · rw [← he] at hid
    simp [hj] at hid

/-- Processing more rows preserves "every row with id `i` is marked sent at
`now`". -/
theorem processRows_preserves_sent (env : OutboxEnv) (now : String) (i : Nat) :
    ∀ (sel t : List OutboxRow),
      (∀ r2 ∈ t, r2.id = i → r2.sent_at = some now) →
      ∀ r2 ∈ (processRows env now sel t).table, r2.id = i → r2.sent_at = some now := by
  intro sel
  induction sel with
  | nil => intro t h; simpa [processRows] using h
  | cons row rest ih =>
    intro t h
    by_cases hrow : msgOf row = ""
    · simpa [processRows, hrow] using ih t h
    · match ho : env.sendMessage (dstOf row) (msgOf row) with
      | .error _ => simpa [processRows, hrow, ho] using h
      | .ok receipt =>
        have h2 := updateSent_preserves t i row.id now receipt h
        simpa [processRows, hrow, ho] using ih (updateSent t row.id now receipt) h2

/-- With a transport that never throws, a successful cycle marks every table
row sharing the id of a selected non-empty-message row as sent at `now`. -/
theorem sent_after_success (env : OutboxEnv) (now : String)
    (hok : ∀ d m, ∃ o, env.sendMessage d m = Except.ok o) :
    ∀ (sel t : List OutboxRow) (r : OutboxRow), r ∈ sel → msgOf r ≠ "" →
      ∀ r2 ∈ (processRows env now sel t).table, r2.id = r.id →
        r2.sent_at = some now := by
  intro sel
  induction sel with
  | nil => intro t r h; exact absurd h (List.not_mem_nil r)
  | cons row rest ih =>
    intro t r hr hmsg
    by_cases hrow : msgOf row = ""
    · rcases List.mem_cons.mp hr with h1 | h2
      · exact absurd (h1 ▸ hrow) hmsg
      · intro r2 hr2 hid
        revert hr2
        simpa [processRows, hrow] using fun hr2 => ih t r h2 hmsg r2 hr2 hid
    · obtain ⟨o, ho⟩ := hok (dstOf row) (msgOf row)
      rcases List.mem_cons.mp hr with h1 | h2
      · subst h1
        intro r2 hr2 hid
        revert hr2
        have base := updateSent_sets t r.id now o
        simpa [processRows, hrow, ho] using fun hr2 =>
          processRows_preserves_sent env now r.id rest
            (updateSent t r.id now o) base r2 hr2 hid
      · intro r2 hr2 hid
        revert hr2
        simpa [processRows, hrow, ho] using fun hr2 =>
          ih (updateSent t row.id now o) r h2 hmsg r2 hr2 hid

end Bot

namespace Bot

/-- Every send attempt made by an outbox cycle carries a non-empty message
(rows with an empty body are skipped before the send). -/
theorem attempts_have_nonempty_message (env : OutboxEnv) (now : String) :
    ∀ (sel t : List OutboxRow) (p : String × String),
      p ∈ (processRows env now sel t).attempts → p.2 ≠ "" := by
  intro sel
  induction sel with
  | nil => intro t p h; simp [processRows] at h
  | cons row rest ih =>
    intro t p hp
    by_cases hrow : msgOf row = ""
    · exact ih t p (by simpa [processRows, hrow] using hp)
    · match ho : env.sendMessage (dstOf row) (msgOf row) with
      | .error _ =>
        simp [processRows, hrow, ho] at hp
        rw [hp]
        exact hrow
      | .ok receipt =>
        rw [processRows] at hp
        simp only [hrow, ho, if_neg] at hp
        simp at hp
        rcases hp with h1 | h2
        · rw [h1]; exact hrow
        · exact ih (updateSent t row.id now receipt) p h2

/-- A table row whose id matches no selected row with a non-empty message
passes through an outbox cycle unchanged. -/
theorem row_preserved_of_no_matching_send (env : OutboxEnv) (now : String) :
    ∀ (sel t : List OutboxRow) (r : OutboxRow), r ∈ t →
      (∀ r0 ∈ sel, r0.id = r.id → msgOf r0 = "") →
      r ∈ (processRows env now sel t).table := by
  intro sel
  induction sel with
  | nil => intro t r h _; simpa [processRows] using h
  | cons row rest ih =>
    intro t r hmem h
    by_cases hrow : msgOf row = ""
    · simpa [processRows, hrow] using
        ih t r hmem (fun r0 h0 => h r0 (List.mem_cons_of_mem row h0))
    · have hne : ¬ row.id = r.id := fun e => hrow (h row (List.mem_cons_self row rest) e)
      match ho : env.sendMessage (dstOf row) (msgOf row) with
      | .error _ => simpa [processRows, hrow, ho] using hmem
      | .ok receipt =>
        have hne2 : ¬ r.id = row.id := fun e => hne (Eq.symm e)
        have hmem2 : r ∈ updateSent t row.id now receipt := by
          refine List.mem_map.mpr ⟨r, hmem, ?_⟩
          simp [hne2]
        simpa [processRows, hrow, ho] using
          ih (updateSent t row.id now receipt) r hmem2
            (fun r0 h0 => h r0 (List.mem_cons_of_mem row h0))

/-- C2: The outbox selection filter is `sent_at IS NULL`; with a transport
that does not throw, a selected row with a non-empty message is attempted in
the cycle, and after the cycle every table row with its id has `sent_at` set
to the cycle's timestamp and is therefore excluded from every subsequent
cycle's selection. -/
theorem outbox_at_least_once (env : OutboxEnv) (now : String)
    (t : List OutboxRow) (r : OutboxRow)
    (hsel : r ∈ selectPending t) (hmsg : msgOf r ≠ "")
    (hok : ∀ d m, ∃ o, env.sendMessage d m = Except.ok o) :
    r.sent_at = none ∧
    (dstOf r, msgOf r) ∈ (pollOutboxAndSend env now true t).attempts ∧
    (∀ r2 ∈ (pollOutboxAndSend env now true t).table, r2.id = r.id →
      r2.sent_at = some now ∧
      r2 ∉ selectPending (pollOutboxAndSend env now true t).table) := by
  have hpoll : pollOutboxAndSend env now true t =
      processRows env now (selectPending t) t := by
    simp [pollOutboxAndSend]
  refine ⟨sent_at_none_of_mem_selectPending hsel, ?_, ?_⟩
  · rw [hpoll]
    exact attempted_of_selected env now hok _ t r hsel hmsg
  · rw [hpoll]
    intro r2 hr2 hid
    have hs := sent_after_success env now hok _ t r hsel hmsg r2 hr2 hid
    refine ⟨hs, fun hmem2 => ?_⟩
    have h0 := sent_at_none_of_mem_selectPending hmem2
    rw [hs] at h0
    exact Option.noConfusion h0

/-- Witness for C2 at a concrete input: the single pending row
`{id: 1, message: "hi"}` is attempted, marked sent at `"T"`, and excluded
from the next selection. -/
theorem outbox_at_least_once_witness :
    (⟨1, none, some "hi", none, none⟩ : OutboxRow).sent_at = none ∧
    (dstOf ⟨1, none, some "hi", none, none⟩, msgOf ⟨1, none, some "hi", none, none⟩) ∈
      (pollOutboxAndSend outboxEnvOk "T" true
        [⟨1, none, some "hi", none, none⟩]).attempts ∧
    (∀ r2 ∈ (pollOutboxAndSend outboxEnvOk "T" true
        [⟨1, none, some "hi", none, none⟩]).table,
      r2.id = (⟨1, none, some "hi", none, none⟩ : OutboxRow).id →
      r2.sent_at = some "T" ∧
      r2 ∉ selectPending (pollOutboxAndSend outboxEnvOk "T" true
        [⟨1, none, some "hi", none, none⟩]).table) :=
  outbox_at_least_once outboxEnvOk "T" [⟨1, none, some "hi", none, none⟩]
    ⟨1, none, some "hi", none, none⟩ (by decide) (by decide)
    (fun _ _ => ⟨some "MSGID", rfl⟩)

/-- C10: A pending outbox row whose message body is empty or absent (and
whose id matches no selected row with a non-empty message) is never sent —
every attempt of the cycle carries a non-empty message — and never updated:
it survives the cycle unchanged with `sent_at` still unset, so (whenever the
pending rows fit the batch bound) it is selected again by the next cycle. -/
theorem outbox_empty_message_skipped (env : OutboxEnv) (now : String)
    (t : List OutboxRow) (r : OutboxRow)
    (hmem : r ∈ t) (_hempty : msgOf r = "") (hpend : r.sent_at = none)
    (hid : ∀ r2 ∈ selectPending t, r2.id = r.id → msgOf r2 = "") :
    (∀ p ∈ (pollOutboxAndSend env now true t).attempts, p.2 ≠ "") ∧
    r ∈ (pollOutboxAndSend env now true t).table ∧
    ((pendingFilter (pollOutboxAndSend env now true t).table).length ≤ 50 →
      r ∈ selectPending (pollOutboxAndSend env now true t).table) := by
  have hpoll : pollOutboxAndSend env now true t =
      processRows env now (selectPending t) t := by
    simp [pollOutboxAndSend]
  rw [hpoll]
  have htab : r ∈ (processRows env now (selectPending t) t).table :=
    row_preserved_of_no_matching_send env now _ t r hmem hid
  refine ⟨fun p hp => attempts_have_nonempty_message env now _ t p hp, htab, ?_⟩
  intro hlen
  have hfil : r ∈ pendingFilter (processRows env now (selectPending t) t).table :=
    List.mem_filter.mpr ⟨htab, by simp [hpend]⟩
  show r ∈ List.take 50 (pendingFilter (processRows env now (selectPending t) t).table)
  rw [List.take_of_length_le hlen]
  exact hfil

/-- Witness for C10 at a concrete input: the message-less row `{id: 1}`
survives a cycle (alongside a sent row `{id: 2, message: "y"}`) unchanged
and pending. -/
theorem outbox_empty_message_skipped_witness :
    (∀ p ∈ (pollOutboxAndSend outboxEnvOk "T" true
        [⟨1, none, none, none, none⟩, ⟨2, none, some "y", none, none⟩]).attempts,
      p.2 ≠ "") ∧
    (⟨1, none, none, none, none⟩ : OutboxRow) ∈
      (pollOutboxAndSend outboxEnvOk "T" true
        [⟨1, none, none, none, none⟩, ⟨2, none, some "y", none, none⟩]).table ∧
    ((pendingFilter (pollOutboxAndSend outboxEnvOk "T" true
        [⟨1, none, none, none, none⟩, ⟨2, none, some "y", none, none⟩]).table).length ≤ 50 →
      (⟨1, none, none, none, none⟩ : OutboxRow) ∈
        selectPending (pollOutboxAndSend outboxEnvOk "T" true
          [⟨1, none, none, none, none⟩, ⟨2, none, some "y", none, none⟩]).table) :=
  outbox_empty_message_skipped outboxEnvOk "T"
    [⟨1, none, none, none, none⟩, ⟨2, none, some "y", none, none⟩]
    ⟨1, none, none, none, none⟩ (by decide) (by decide) (by decide) (by decide)

/-- C3 counterexample: with two pending rows `{id: 1, message: "x"}` and
`{id: 2, message: "y"}` and a transport whose send throws, the cycle makes
only the one (failed) attempt for the first row — the second selected row is
not attempted in that cycle, contradicting the claim that a send failure
does not abort the remaining rows of the batch. -/
theorem outbox_failure_aborts_batch_cex :
    (⟨2, none, some "y", none, none⟩ : OutboxRow) ∈ selectPending
      [⟨1, none, some "x", none, none⟩, ⟨2, none, some "y", none, none⟩] ∧
    msgOf ⟨2, none, some "y", none, none⟩ ≠ "" ∧
    (pollOutboxAndSend outboxEnvFails "T" true
      [⟨1, none, some "x", none, none⟩, ⟨2, none, some "y", none, none⟩]).attempts =
      [(GROUP_JID, "x")] ∧
    (dstOf ⟨2, none, some "y", none, none⟩, msgOf ⟨2, none, some "y", none, none⟩) ∉
      (pollOutboxAndSend outboxEnvFails "T" true
        [⟨1, none, some "x", none, none⟩, ⟨2, none, some "y", none, none⟩]).attempts := by
  decide

/-- C3 (amended): a send failure (a thrown send) on one outbox row ends the
cycle at that row: the failed attempt is the last of the batch and the table
is left unchanged from that point, so the failed row and all remaining rows
keep `sent_at` unset and are selected again on subsequent cycles. -/
theorem outbox_send_failure_ends_cycle (env : OutboxEnv) (now : String)
    (row : OutboxRow) (rest t : List OutboxRow)
    (hmsg : msgOf row ≠ "")
    (hfail : env.sendMessage (dstOf row) (msgOf row) = .error ()) :
    processRows env now (row :: rest) t = ⟨[(dstOf row, msgOf row)], t⟩ := by
  simp [processRows, hmsg, hfail]

/-- Witness for the amended C3 at a concrete input: the throwing send of row
`{id: 1, message: "x"}` ends the cycle with the table untouched. -/
theorem outbox_send_failure_ends_cycle_witness :
    processRows outboxEnvFails "T"
      [⟨1, none, some "x", none, none⟩, ⟨2, none, some "y", none, none⟩]
      [⟨1, none, some "x", none, none⟩, ⟨2, none, some "y", none, none⟩] =
      ⟨[(GROUP_JID, "x")],
       [⟨1, none, some "x", none, none⟩, ⟨2, none, some "y", none, none⟩]⟩ := by
  have h := outbox_send_failure_ends_cycle outboxEnvFails "T"
    ⟨1, none, some "x", none, none⟩ [⟨2, none, some "y", none, none⟩]
    [⟨1, none, some "x", none, none⟩, ⟨2, none, some "y", none, none⟩]
    (by decide) rfl
  simpa [dstOf, msgOf, jsOrStr] using h

end Bot

namespace Bot

/-- C4 counterexample: in a run of `startWhatsApp` during which no
`connection.update` event is delivered — so the session never reaches the
Open state — the trace nevertheless contains the scheduling of both periodic
pollers and the immediate bucket and outbox cycles, contradicting the claim
that no bucket or outbox cycle runs before the connection is open. -/
theorem schedulers_before_open_cex :
    StartAction.scheduleBucket ∈ startupTrace [] ∧
    StartAction.scheduleOutbox ∈ startupTrace [] ∧
    StartAction.runBucketCycle ∈ startupTrace [] ∧
    StartAction.runOutboxCycle ∈ startupTrace [] ∧
    StartAction.markOpen ∉ startupTrace [] := by
  decide

/-- C4 (amended): the two periodic schedulers are started, and an immediate
bucket and outbox cycle run, unconditionally at the end of the
`startWhatsApp` body — for every sequence of delivered connection events,
whether or not the session ever reaches the Open state. -/
theorem schedulers_started_unconditionally (updates : List ConnUpdate) :
    StartAction.scheduleBucket ∈ startupTrace updates ∧
    StartAction.scheduleOutbox ∈ startupTrace updates ∧
    StartAction.runBucketCycle ∈ startupTrace updates ∧
    StartAction.runOutboxCycle ∈ startupTrace updates := by
  refine ⟨?_, ?_, ?_, ?_⟩ <;>
    exact List.mem_append_left (processUpdates false updates) (by decide)

/-- C5: On a session-close event the Connection Manager re-invokes `start`
exactly when the computed close code differs from the logged-out code: for
the logged-out code the handler emits no action at all, and for every other
close code it emits exactly the immediate `start` re-invocation (no backoff
action precedes it). -/
theorem close_logged_out_no_reconnect (ob : Bool) (sc st : Option Nat) :
    (closeCode sc st = disconnectReasonLoggedOut →
      (handleConnectionUpdate ob ⟨some "close", none, sc, st⟩).1 = []) ∧
    (closeCode sc st ≠ disconnectReasonLoggedOut →
      (handleConnectionUpdate ob ⟨some "close", none, sc, st⟩).1 =
        [StartAction.invokeStart]) := by
  constructor
  · intro h
    simp [handleConnectionUpdate, shouldReconnect, h]
  · intro h
    simp [handleConnectionUpdate, shouldReconnect, h]

/-- Witness for C5 at concrete inputs: close code 401 (logged out) yields no
reconnect, close code 500 yields an immediate `start` re-invocation. -/
theorem close_logged_out_no_reconnect_witness :
    (handleConnectionUpdate false ⟨some "close", none, some 401, none⟩).1 = [] ∧
    (handleConnectionUpdate false ⟨some "close", none, some 500, none⟩).1 =
      [StartAction.invokeStart] :=
  ⟨(close_logged_out_no_reconnect false (some 401) none).1 (by decide),
   (close_logged_out_no_reconnect false (some 500) none).2 (by decide)⟩

/-- C7: Loading the Sent-Item Ledger is total: a read that throws (missing or
unreadable file) and a parse that throws (unparseable content) both yield the
empty set instead of failing startup, while a readable, well-formed
representation yields exactly the persisted set. -/
theorem load_sent_cache_total (parse : String → Except Unit (List String)) :
    loadSentCache (.error ()) parse = [] ∧
    (∀ s, parse s = .error () → loadSentCache (.ok s) parse = []) ∧
    (∀ s names, parse s = .ok names →
      loadSentCache (.ok s) parse = setOfList names) := by
  refine ⟨rfl, ?_, ?_⟩
  · intro s h
    simp [loadSentCache, h]
  · intro s names h
    simp [loadSentCache, h]

/-- Witness for C7 at concrete inputs: a parse failure yields the empty
ledger and a successful parse of `["a","a","b"]` yields the two-element set. -/
theorem load_sent_cache_total_witness :
    loadSentCache (.ok "nonsense") (fun _ => .error ()) = [] ∧
    loadSentCache (.ok "x") (fun _ => .ok ["a", "a", "b"]) = setOfList ["a", "a", "b"] :=
  ⟨(load_sent_cache_total (fun _ => .error ())).2.1 "nonsense" rfl,
   (load_sent_cache_total (fun _ => .ok ["a", "a", "b"])).2.2 "x" ["a", "a", "b"] rfl⟩

end Bot
